import Mathlib

/-!
Verification development for the streamlit_codeX grading pipeline
(`src/services/openai_eval.py`, `src/services/activities.py`, `src/models.py`).

The Python code is shallowly embedded: floats become exact rationals (ℚ),
Python dicts parsed from JSON become a `Json` inductive plus typed views,
raised exceptions become `Except PyExc`, and the external oracle / database /
uuid source become explicit function parameters.
-/

attribute [local semireducible] Rat.mul Rat.add Rat.inv Rat.sub Rat.ofScientific

/-- Powers of ten as rationals, by plain recursion so that concrete
values reduce. -/
def tenPow : ℕ → ℚ
  | 0 => 1
  | n + 1 => 10 * tenPow n

/-- Powers of two as rationals, by plain recursion. -/
def twoPow : ℕ → ℚ
  | 0 => 1
  | n + 1 => 2 * twoPow n

/-- Embedding of Python `max` on two floats. -/
def pyMax (a b : ℚ) : ℚ := if a < b then b else a

/-- Embedding of Python `min` on two floats. -/
def pyMin (a b : ℚ) : ℚ := if b < a then b else a

/-- Python exceptions that the embedded code can raise. -/
inductive PyExc where
  | keyError
  | attributeError
  | typeError
  | valueError
  | apiConnectionError
  | runtimeError
  | validationError
deriving DecidableEq, Repr

/-- JSON values, the result type of `json.loads`. -/
inductive Json where
  | null
  | bool (b : Bool)
  | num (q : ℚ)
  | str (s : String)
  | arr (xs : List Json)
  | obj (kvs : List (String × Json))

/-- The left-brace character, written via its code point. -/
def lbrace : Char := Char.ofNat 123

/-- The right-brace character, written via its code point. -/
def rbrace : Char := Char.ofNat 125

/-- The double-quote character, written via its code point. -/
def dquote : Char := Char.ofNat 34

/-- The backslash character, written via its code point. -/
def bslash : Char := Char.ofNat 92

/-- JSON whitespace, as accepted by Python `json.loads`. -/
def isJsonWs (c : Char) : Bool :=
  c = ' ' || c = '\t' || c = '\n' || c = '\r'

/-- Drop leading JSON whitespace. -/
def skipWs : List Char → List Char
  | [] => []
  | c :: cs => if isJsonWs c then skipWs cs else c :: cs

/-- Decimal digit test. -/
def isDig (c : Char) : Bool := '0' ≤ c && c ≤ '9'

/-- Value of a decimal digit. -/
def digVal (c : Char) : ℕ := c.toNat - '0'.toNat

/-- Split off a maximal run of decimal digits. -/
def takeDigits : List Char → (List Char × List Char)
  | [] => ([], [])
  | c :: cs =>
    if isDig c then
      let (ds, rest) := takeDigits cs
      (c :: ds, rest)
    else ([], c :: cs)

/-- Natural number denoted by a digit run. -/
def digitsToNat (ds : List Char) : ℕ :=
  ds.foldl (fun acc c => 10 * acc + digVal c) 0

/-- Hexadecimal digit test (either case). -/
def isHexDig (c : Char) : Bool :=
  isDig c || ('a' ≤ c && c ≤ 'f') || ('A' ≤ c && c ≤ 'F')

/-- Value of a hexadecimal digit. -/
def hexVal (c : Char) : ℕ :=
  if isDig c then digVal c
  else if 'a' ≤ c && c ≤ 'f' then c.toNat - 'a'.toNat + 10
  else c.toNat - 'A'.toNat + 10

/-- Finish a JSON number: integer digits and fraction digits are known,
an optional exponent may follow. -/
def parseNumTail (ints fracDs r2 : List Char) : Option (ℚ × List Char) :=
  let mant : ℚ := (digitsToNat (ints ++ fracDs) : ℚ) / tenPow fracDs.length
  match r2 with
  | e :: r3 =>
    if e = 'e' || e = 'E' then
      let (neg, r4) :=
        match r3 with
        | '-' :: r => (true, r)
        | '+' :: r => (false, r)
        | _ => (false, r3)
      match takeDigits r4 with
      | ([], _) => none
      | (expDs, r5) =>
        let p : ℚ := tenPow (digitsToNat expDs)
        some (if neg then mant / p else mant * p, r5)
    else some (mant, r2)
  | [] => some (mant, [])

/-- Parse the JSON number grammar `int frac? exp?` after the leading
sign has been inspected; the integer part is `0` alone or a nonzero
digit followed by digits (leading zeros are rejected, as in `json.loads`). -/
def parseNumAux (cs : List Char) : Option (ℚ × List Char) :=
  match takeDigits cs with
  | ([], _) => none
  | (ints, r1) =>
    if ints.length > 1 && ints.headD '0' = '0' then none
    else
      match r1 with
      | '.' :: r =>
        match takeDigits r with
        | ([], _) => none
        | (fracDs, r2) => parseNumTail ints fracDs r2
      | _ => parseNumTail ints [] r1

/-- Parse a JSON number including an optional leading minus sign. -/
def parseNum (cs : List Char) : Option (ℚ × List Char) :=
  match cs with
  | '-' :: rest =>
    match parseNumAux rest with
    | some (q, r) => some (-q, r)
    | none => none
  | _ => parseNumAux cs

/-- Simple (single-character) escape sequences accepted by `json.loads`. -/
def escChar (e : Char) : Option Char :=
  if e = dquote then some dquote
  else if e = bslash then some bslash
  else if e = '/' then some '/'
  else if e = 'b' then some (Char.ofNat 8)
  else if e = 'f' then some (Char.ofNat 12)
  else if e = 'n' then some '\n'
  else if e = 'r' then some '\r'
  else if e = 't' then some '\t'
  else none

/-- Prepend a character to the string of a partial string-parse result. -/
def consStr (ch : Char) : Option (String × List Char) → Option (String × List Char)
  | some (s, r) => some (⟨ch :: s.data⟩, r)
  | none => none

/-- Parse the body of a JSON string after the opening quote, handling
the escape sequences accepted by `json.loads`; rejects raw control
characters (strict mode). -/
def parseStringBody : List Char → Option (String × List Char)
  | [] => none
  | c :: cs =>
    if c = dquote then some ("", cs)
    else if c = bslash then
      match cs with
      | 'u' :: a :: b :: c3 :: d :: cs3 =>
        if isHexDig a && isHexDig b && isHexDig c3 && isHexDig d then
          consStr (Char.ofNat (((hexVal a * 16 + hexVal b) * 16 + hexVal c3) * 16 + hexVal d))
            (parseStringBody cs3)
        else none
      | e :: cs2 =>
        match escChar e with
        | some ch => consStr ch (parseStringBody cs2)
        | none => none
      | [] => none
    else if c.toNat < 32 then none
    else consStr c (parseStringBody cs)

/-- Expect a literal character sequence, returning the remainder. -/
def expectChars : List Char → List Char → Option (List Char)
  | [], cs => some cs
  | _ :: _, [] => none
  | p :: ps, c :: cs => if c = p then expectChars ps cs else none

mutual

/-- Parse one JSON value (fueled recursive-descent; fuel only bounds the
nesting/element count and is set large enough at the top level). -/
def parseVal : ℕ → List Char → Option (Json × List Char)
  | 0, _ => none
  | _ + 1, [] => none
  | fuel + 1, c :: cs =>
    if c = dquote then
      match parseStringBody cs with
      | some (s, r) => some (.str s, r)
      | none => none
    else if c = lbrace then
      match skipWs cs with
      | d :: r =>
        if d = rbrace then some (.obj [], r)
        else parseObjMembers fuel (d :: r) |>.map (fun (kvs, r2) => (.obj kvs, r2))
      | [] => none
    else if c = '[' then
      match skipWs cs with
      | ']' :: r => some (.arr [], r)
      | r => parseArrElems fuel r |>.map (fun (xs, r2) => (.arr xs, r2))
    else if c = 'n' then
      (expectChars ['u', 'l', 'l'] cs).map (fun r => (.null, r))
    else if c = 't' then
      (expectChars ['r', 'u', 'e'] cs).map (fun r => (.bool true, r))
    else if c = 'f' then
      (expectChars ['a', 'l', 's', 'e'] cs).map (fun r => (.bool false, r))
    else
      (parseNum (c :: cs)).map (fun (q, r) => (.num q, r))

/-- Parse one or more comma-separated array elements and the closing bracket. -/
def parseArrElems : ℕ → List Char → Option (List Json × List Char)
  | 0, _ => none
  | fuel + 1, cs =>
    match parseVal fuel (skipWs cs) with
    | none => none
    | some (v, r) =>
      match skipWs r with
      | ',' :: r2 =>
        (parseArrElems fuel r2).map (fun (xs, r3) => (v :: xs, r3))
      | ']' :: r2 => some ([v], r2)
      | _ => none

/-- Parse one or more comma-separated `"key": value` members and the
closing brace. -/
def parseObjMembers : ℕ → List Char → Option (List (String × Json) × List Char)
  | 0, _ => none
  | fuel + 1, cs =>
    match skipWs cs with
    | q :: r =>
      if q = dquote then
        match parseStringBody r with
        | none => none
        | some (k, r1) =>
          match skipWs r1 with
          | ':' :: r2 =>
            match parseVal fuel (skipWs r2) with
            | none => none
            | some (v, r3) =>
              match skipWs r3 with
              | ',' :: r4 =>
                (parseObjMembers fuel r4).map (fun (kvs, r5) => ((k, v) :: kvs, r5))
              | d :: r4 =>
                if d = rbrace then some ([(k, v)], r4) else none
              | [] => none
          | _ => none
      else none
    | [] => none

end

/-- Embedding of Python `json.loads`: `none` models a raised
`json.JSONDecodeError`. -/
def json_loads (s : String) : Option Json :=
  let cs := skipWs s.data
  match parseVal (cs.length + 1) cs with
  | some (v, rest) => if skipWs rest = [] then some v else none
  | none => none

/-- First index of character `c` in `cs`; models Python `str.find`
(`none` models the return value `-1`). -/
def strFind (cs : List Char) (c : Char) : Option ℕ :=
  cs.findIdx? (fun x => x = c)

/-- Last index of character `c` in `cs`; models Python `str.rfind`. -/
def strRfind (cs : List Char) (c : Char) : Option ℕ :=
  match strFind cs.reverse c with
  | some k => some (cs.length - 1 - k)
  | none => none

/-- The text that `_parse_json` actually hands to `json.loads`:
the slice from the first `{` to the last `}` when both exist in that
order, otherwise the whole text. -/
def parseCandidate (s : String) : String :=
  match strFind s.data lbrace, strRfind s.data rbrace with
  | some i, some j =>
    if j > i then ⟨(s.data.drop i).take (j + 1 - i)⟩ else s
  | _, _ => s

/-- The safe-fallback object returned by `_parse_json` when parsing fails. -/
def parseFallback : Json :=
  .obj [("per_criterion", .arr []), ("overall_score", .num 0), ("summary", .str "Parsing failed.")]

/-- Embedding of `_parse_json` (src/services/openai_eval.py, lines 28–35):
slice between the outermost braces when present in order, else the whole
text, parse with `json.loads`, and on any exception return the fallback
object. -/
def parse_json (text : String) : Json :=
  match json_loads (parseCandidate text) with
  | some v => v
  | none => parseFallback

/-- Lookup of a string key in a Python dict built from an association
list: the LAST binding of a duplicated key wins (later assignments
overwrite), hence lookup in the reversed list. -/
def dictGet {β : Type} (kvs : List (String × β)) (k : String) : Option β :=
  kvs.reverse.lookup k

/-- Typed view of one element of the oracle payload's `per_criterion`
list: a dict whose fields are read with `.get`, so each field is
optional. -/
structure OracleRow where
  criterion : Option String
  weight : Option ℚ
  score : Option ℚ
  comment : Option String
deriving DecidableEq, Repr

/-- Typed view of the dict returned by `_parse_json`, restricted to the
fields `evaluate_with_openai` reads. `per_criterion = none` covers both
an absent key and JSON `null` (both are falsy and are overwritten before
any further read). -/
structure OracleData where
  per_criterion : Option (List OracleRow)
  summary : Option String
deriving DecidableEq, Repr

/-- Typed view of one `per_criterion` row. Off-shape values (a non-dict
row, or a field of the wrong dynamic type) become the exception that the
Python field accesses or `float(...)` conversions would raise. -/
def toRow (j : Json) : Except PyExc OracleRow :=
  match j with
  | .obj kvs =>
    let crit : Except PyExc (Option String) :=
      match dictGet kvs "criterion" with
      | none => .ok none
      | some (.str s) => .ok (some s)
      | some _ => .error .typeError
    let num : String → Except PyExc (Option ℚ) := fun k =>
      match dictGet kvs k with
      | none => .ok none
      | some (.num q) => .ok (some q)
      | some _ => .error .typeError
    let com : Except PyExc (Option String) :=
      match dictGet kvs "comment" with
      | none => .ok none
      | some (.str s) => .ok (some s)
      | some _ => .error .typeError
    match crit, num "weight", num "score", com with
    | .ok c, .ok w, .ok sc, .ok cm => .ok ⟨c, w, sc, cm⟩
    | .error e, _, _, _ => .error e
    | _, .error e, _, _ => .error e
    | _, _, .error e, _ => .error e
    | _, _, _, .error e => .error e
  | _ => .error .attributeError

/-- Typed view of the parsed payload. A non-dict payload raises
`AttributeError` at `data.get`; a truthy non-list `per_criterion` raises
`TypeError` when iterated; a non-string `summary` is outside the typed
model and is rejected likewise. -/
def toOracleData (j : Json) : Except PyExc OracleData :=
  match j with
  | .obj kvs =>
    let pc : Except PyExc (Option (List OracleRow)) :=
      match dictGet kvs "per_criterion" with
      | none => .ok none
      | some .null => .ok none
      | some (.arr rows) =>
        match rows.mapM toRow with
        | .ok rs => .ok (some rs)
        | .error e => .error e
      | some _ => .error .typeError
    let sm : Except PyExc (Option String) :=
      match dictGet kvs "summary" with
      | none => .ok none
      | some (.str s) => .ok (some s)
      | some _ => .error .typeError
    match pc, sm with
    | .ok p, .ok s => .ok ⟨p, s⟩
    | .error e, _ => .error e
    | _, .error e => .error e
  | _ => .error .attributeError

/-- Round to the nearest integer, ties to even — the rounding used by
Python's built-in `round`. -/
def roundHalfEven (x : ℚ) : ℤ :=
  let f := x.floor
  let r := x - (f : ℚ)
  if r < 1 / 2 then f
  else if 1 / 2 < r then f + 1
  else if f % 2 = 0 then f else f + 1

/-- Embedding of Python `round(x, 2)`. -/
def round2 (x : ℚ) : ℚ :=
  (roundHalfEven (x * 100) : ℚ) / 100

/-- One rubric-criterion dict as passed to `evaluate_with_openai`:
the `criterion` key is always read with `[...]` on dicts produced by
`RubricItem`, while `weight` is read both with `.get` and with `[...]`,
so it is kept optional to model a missing key. -/
structure Criterion where
  criterion : String
  weight : Option ℚ
deriving DecidableEq, Repr

/-- Embedding of `sum(float(c.get("weight", 0)) for c in criteria) or 1.0`
(line 39): Python `or` replaces a falsy (zero) sum by `1.0`, and only a
zero sum — a negative sum is truthy and is kept. -/
def totalOr1 (criteria : List Criterion) : ℚ :=
  let t := (criteria.map (fun c => c.weight.getD 0)).sum
  if t = 0 then 1 else t

/-- Embedding of line 40: each criterion's weight is `c["weight"] / total`;
a criterion dict without a `weight` key raises `KeyError` here (the
subscript access, unlike the `.get` on line 39, has no default). -/
def normalizeCriteria (criteria : List Criterion) : Except PyExc (List (String × ℚ)) :=
  let total := totalOr1 criteria
  criteria.mapM fun c =>
    match c.weight with
    | none => .error .keyError
    | some w => .ok (c.criterion, w / total)

/-- Result dict of `evaluate_with_openai` (the fields it writes). -/
structure GradingResult where
  per_criterion : List OracleRow
  overall_score : ℚ
  summary : Option String
  scaled_total : ℚ
deriving DecidableEq, Repr

/-- The weight `evaluate_with_openai` uses for a row (line 55):
`row.get("weight", w_map.get(row.get("criterion", ""), 0.0))` — the
row's own reported weight when the key is present, otherwise the
normalized rubric weight of its criterion name, otherwise `0.0`. -/
def rowWeight (normalized : List (String × ℚ)) (row : OracleRow) : ℚ :=
  row.weight.getD ((dictGet normalized (row.criterion.getD "")).getD 0)

/-- Embedding of lines 51–64 of `evaluate_with_openai`: the branch on a
truthy `per_criterion`, the per-row weight choice and write-back, the
clamped weighted sum, the empty-feedback population, and the scaled
total. -/
def reconcileAggregate (normalized : List (String × ℚ)) (data : OracleData)
    (max_score : ℚ) : GradingResult :=
  match data.per_criterion with
  | some (r0 :: rest) =>
    let rows := r0 :: rest
    let newRows := rows.map fun row => { row with weight := some (rowWeight normalized row) }
    let agg := (rows.map fun row => (row.score.getD 0) * rowWeight normalized row).sum
    let overall := pyMax 0 (pyMin 100 agg)
    { per_criterion := newRows
      overall_score := overall
      summary := data.summary
      scaled_total := round2 (overall / 100 * max_score) }
  | _ =>
    { per_criterion := normalized.map fun p => ⟨some p.1, some p.2, none, none⟩
      overall_score := 0
      summary := some (data.summary.getD "No feedback returned.")
      scaled_total := round2 ((0 : ℚ) / 100 * max_score) }

deriving instance DecidableEq for Except

/-- Outcome of one call of `evaluate_with_openai`, also recording
whether the oracle (the `client.chat.completions.create` call) was
reached. The oracle's raw text reply is a parameter. -/
structure EvalTrace where
  oracleCalled : Bool
  result : Except PyExc GradingResult
deriving DecidableEq, Repr

/-- Embedding of the body of `evaluate_with_openai` (lines 38–64) for a
given oracle reply: normalize (lines 39–40), call the oracle, parse its
reply, reconcile and aggregate. -/
def evaluate_with_openai (criteria : List Criterion) (oracleText : String)
    (max_score : ℚ) : EvalTrace :=
  match normalizeCriteria criteria with
  | .error e => ⟨false, .error e⟩
  | .ok normalized =>
    match toOracleData (parse_json oracleText) with
    | .error e => ⟨true, .error e⟩
    | .ok data => ⟨true, .ok (reconcileAggregate normalized data max_score)⟩

/-- Input values for one `RubricItem` (src/models.py, lines 5–7). -/
structure RubricItemIn where
  criterion : String
  weight : ℚ
deriving DecidableEq, Repr

/-- Field constraints of `RubricItem`: criterion length 2–200, weight ≥ 0. -/
def rubricItemValid (r : RubricItemIn) : Prop :=
  2 ≤ r.criterion.length ∧ r.criterion.length ≤ 200 ∧ 0 ≤ r.weight

instance (r : RubricItemIn) : Decidable (rubricItemValid r) := by
  unfold rubricItemValid; infer_instance

/-- Embedding of constructing an `ActivityCreate` (src/models.py, lines
9–19): pydantic checks the `Field` constraints and runs the `non_empty`
validator, which rejects an empty criteria list; any violation surfaces
as a pydantic `ValidationError`. -/
def activityCreateValidate (title instruction : String) (max_score : ℚ)
    (criteria : List RubricItemIn) : Except PyExc Unit :=
  if 3 ≤ title.length ∧ title.length ≤ 200
      ∧ instruction.length ≤ 5000
      ∧ 1 ≤ max_score ∧ max_score ≤ 1000
      ∧ (∀ r ∈ criteria, rubricItemValid r)
      ∧ criteria ≠ []
  then .ok () else .error .validationError

/-- Error raised by tenacity once the stop condition is met: a
`RetryError` wrapping the last attempt (not the bare exception, and not
any `OracleUnavailable` type — none exists in the code). -/
structure RetryError (E : Type) where
  lastExc : E
deriving DecidableEq, Repr

/-- Embedding of `wait_exponential(min=1, max=8)` (tenacity, default
`multiplier=1`, `exp_base=2`): after the failed attempt number `n`, wait
`clamp(2^(n-1), 1, 8)` time-units. -/
def waitExpMin1Max8 (attemptNumber : ℕ) : ℚ :=
  pyMax (pyMax 0 1) (pyMin (twoPow (attemptNumber - 1)) 8)

/-- Outcome of a tenacity-wrapped call: the final result, the number of
attempts actually made, and the waits slept between attempts. -/
structure RetryTrace (E A : Type) where
  result : Except (RetryError E) A
  attempts : ℕ
  waits : List ℚ
deriving DecidableEq, Repr

/-- One step of the tenacity retry loop: `idx` is the zero-based index
of the current attempt and `remaining` the number of further attempts
the stop condition still allows. The decorator carries no `retry=`
predicate, so EVERY exception triggers a retry while attempts remain. -/
def retryLoop {E A : Type} (f : ℕ → Except E A) : ℕ → ℕ → RetryTrace E A
  | idx, 0 =>
    match f idx with
    | .ok a => ⟨.ok a, idx + 1, []⟩
    | .error e => ⟨.error ⟨e⟩, idx + 1, []⟩
  | idx, remaining + 1 =>
    match f idx with
    | .ok a => ⟨.ok a, idx + 1, []⟩
    | .error _ =>
      let t := retryLoop f (idx + 1) remaining
      ⟨t.result, t.attempts, waitExpMin1Max8 (idx + 1) :: t.waits⟩

/-- Embedding of the `@retry(stop=stop_after_attempt(3),
wait=wait_exponential(min=1, max=8))` decorator on
`evaluate_with_openai` (line 37), applied to an abstract attempt
function `f` (attempt `i` yields `f i`): at most 3 attempts in total. -/
def tenacityRetry3 {E A : Type} (f : ℕ → Except E A) : RetryTrace E A :=
  retryLoop f 0 2

/-- Embedding of `gen_join_code` (src/services/activities.py, lines
6–7): `uuid.uuid4().hex[:6].upper()`, with the 32-character lowercase
hex digest of the fresh UUID passed in explicitly. -/
def gen_join_code (uuidHex : List Char) : List Char :=
  (uuidHex.take 6).map Char.toUpper

/-- Step of the `create_activity` retry loop (src/services/activities.py,
lines 9–17): generate the next candidate code from the next fresh UUID
hex digest, insert and return the code if no activity exists under it;
`none` with no inserts after the candidates run out models the final
`RuntimeError`. The returned list holds the codes actually inserted
into the database. -/
def createActivityLoop (uuidHexes : ℕ → List Char) (existing : List Char → Bool) :
    ℕ → ℕ → Option (List Char) × List (List Char)
  | _, 0 => (none, [])
  | idx, remaining + 1 =>
    let code := gen_join_code (uuidHexes idx)
    if existing code then createActivityLoop uuidHexes existing (idx + 1) remaining
    else (some code, [code])

/-- Embedding of `create_activity`: up to 5 candidate join codes are
tried; `uuidHexes i` is the hex digest of the UUID drawn by the `i`-th
`gen_join_code` call and `existing` is the database lookup
`get_activity`. -/
def create_activity (uuidHexes : ℕ → List Char) (existing : List Char → Bool) :
    Option (List Char) × List (List Char) :=
  createActivityLoop uuidHexes existing 0 5

/-- The alphabet of `uuid4().hex`: lowercase hexadecimal digits. -/
def lowerHexChars : List Char := "0123456789abcdef".data

/-- Uppercase hexadecimal digits. -/
def upperHexChars : List Char := "0123456789ABCDEF".data

/-! ## Helper lemmas -/

/-- Distribute a list sum over division by a constant. -/
theorem sum_map_div (l : List ℚ) (t : ℚ) :
    (l.map (fun x => x / t)).sum = l.sum / t := by
  induction l with
  | nil => simp
  | cons x xs ih => simp [ih, add_div]

/-- When every criterion has a weight key, the normalization `mapM`
succeeds and divides each weight by the given total. -/
theorem normMapM (t : ℚ) (cs : List Criterion) (h : ∀ c ∈ cs, c.weight ≠ none) :
    (cs.mapM fun c =>
      match c.weight with
      | none => (Except.error PyExc.keyError : Except PyExc (String × ℚ))
      | some w => .ok (c.criterion, w / t)) =
      .ok (cs.map fun c => (c.criterion, c.weight.getD 0 / t)) := by
  rw [← List.mapM'_eq_mapM]
  induction cs with
  | nil => rfl
  | cons c cs ih =>
    have hc := h c (by simp)
    match hw : c.weight with
    | none => exact absurd hw hc
    | some w =>
      have := ih (fun x hx => h x (by simp [hx]))
      simp only [List.mapM'_cons, hw, this, List.map_cons]
      rfl

/-- Closed form of `normalizeCriteria` when every weight key is present. -/
theorem normalizeCriteria_eq (cs : List Criterion) (h : ∀ c ∈ cs, c.weight ≠ none) :
    normalizeCriteria cs =
      .ok (cs.map fun c => (c.criterion, c.weight.getD 0 / totalOr1 cs)) := by
  unfold normalizeCriteria
  exact normMapM _ _ h

/-! ## C3 — zero-sum fallback in the Weight Normalizer -/

/-- Claim C3 counterexample: the claim says a criteria sequence whose raw
weights sum to ≤ 0 is normalized by dividing by 1.0 and succeeds.  For
the negative sum −1 the code divides by the true sum (the `or 1.0` only
replaces a falsy, i.e. exactly zero, sum), giving weight 1 instead of
the claimed −1; and when weights are missing the subscript
`c["weight"]` raises `KeyError` instead of succeeding. -/
theorem C3_counterexample :
    normalizeCriteria [⟨"A", some (-1)⟩] = .ok [("A", 1)] ∧ (1 : ℚ) ≠ -1 ∧
    normalizeCriteria [⟨"A", none⟩] = .error .keyError :=
  ⟨by decide, by norm_num, by decide⟩

/-- Claim C3 amended: when every criterion has a weight key and the raw
weights sum to exactly 0, normalization divides by 1.0 and succeeds,
returning each raw weight unchanged; in particular
`[("A",0),("B",0)]` yields weights `{A: 0, B: 0}` rather than an
error. -/
theorem C3_zero_sum_fallback :
    (∀ cs : List Criterion, (∀ c ∈ cs, c.weight ≠ none) →
      (cs.map fun c => c.weight.getD 0).sum = 0 →
      normalizeCriteria cs = .ok (cs.map fun c => (c.criterion, c.weight.getD 0))) ∧
    normalizeCriteria [⟨"A", some 0⟩, ⟨"B", some 0⟩] = .ok [("A", 0), ("B", 0)] := by
  constructor
  · intro cs hall hsum
    rw [normalizeCriteria_eq cs hall]
    have ht : totalOr1 cs = 1 := by unfold totalOr1; simp [hsum]
    simp [ht]
  · decide

/-- Claim C3 witness: the amended statement applied to a concrete zero-weight
rubric. -/
theorem C3_witness :
    normalizeCriteria [⟨"Z", some 0⟩] = .ok [("Z", 0)] :=
  C3_zero_sum_fallback.1 [⟨"Z", some 0⟩] (by decide) (by decide)

/-! ## C4 — normalization invariant -/

/-- Claim C4 counterexample: the claim asserts the invariant for every
non-empty sequence with weights ≥ 0, but for the all-zero rubric
`[("A",0)]` the normalized weights sum to 0, not to 1 ± 1e-9 (the
zero-sum fallback divides by 1.0, it does not rescale). -/
theorem C4_counterexample :
    normalizeCriteria [⟨"A", some 0⟩] = .ok [("A", 0)] ∧
    (([(("A" : String), (0 : ℚ))]).map Prod.snd).sum = 0 ∧
    ¬ |(([(("A" : String), (0 : ℚ))]).map Prod.snd).sum - 1| ≤ 1 / 1000000000 :=
  ⟨by decide, by decide, by norm_num⟩

/-- Claim C4 amended: for every non-empty sequence of (name, weight) pairs
with all weights present and ≥ 0 and with POSITIVE raw sum, the
normalized weights are each ≥ 0 and sum to exactly 1 (hence within the
claimed 1e-9 tolerance). -/
theorem C4_normalization_invariant :
    ∀ cs : List Criterion, cs ≠ [] →
      (∀ c ∈ cs, ∃ w, c.weight = some w ∧ 0 ≤ w) →
      0 < (cs.map fun c => c.weight.getD 0).sum →
      normalizeCriteria cs =
          .ok (cs.map fun c => (c.criterion, c.weight.getD 0 / totalOr1 cs)) ∧
      (∀ p ∈ cs.map fun c => (c.criterion, c.weight.getD 0 / totalOr1 cs), 0 ≤ p.2) ∧
      ((cs.map fun c => (c.criterion, c.weight.getD 0 / totalOr1 cs)).map Prod.snd).sum = 1 ∧
      |((cs.map fun c => (c.criterion, c.weight.getD 0 / totalOr1 cs)).map Prod.snd).sum - 1|
          ≤ 1 / 1000000000 := by
  intro cs _ hw hs
  have hall : ∀ c ∈ cs, c.weight ≠ none := by
    intro c hc
    obtain ⟨w, hw', _⟩ := hw c hc
    simp [hw']
  have ht : totalOr1 cs = (cs.map fun c => c.weight.getD 0).sum := by
    unfold totalOr1
    simp [ne_of_gt hs]
  have hsum :
      ((cs.map fun c => (c.criterion, c.weight.getD 0 / totalOr1 cs)).map Prod.snd).sum = 1 := by
    rw [List.map_map]
    have : (Prod.snd ∘ fun c : Criterion => (c.criterion, c.weight.getD 0 / totalOr1 cs)) =
        (fun x => x / totalOr1 cs) ∘ (fun c : Criterion => c.weight.getD 0) := rfl
    rw [this, ← List.map_map, sum_map_div, ht]
    exact div_self (ne_of_gt hs)
  refine ⟨normalizeCriteria_eq cs hall, ?_, hsum, by rw [hsum]; norm_num⟩
  intro p hp
  obtain ⟨c, hc, rfl⟩ := List.mem_map.mp hp
  obtain ⟨w, hw', hw0⟩ := hw c hc
  have : (0 : ℚ) ≤ c.weight.getD 0 := by simp [hw', hw0]
  exact div_nonneg this (by rw [ht]; exact le_of_lt hs)

/-- Claim C4 witness: the amended invariant applied to the concrete
rubric `[("A",3),("B",1)]`. -/
theorem C4_witness :
    normalizeCriteria [⟨"A", some 3⟩, ⟨"B", some 1⟩] = .ok [("A", 3 / 4), ("B", 1 / 4)] ∧
    (([(("A" : String), (3 : ℚ) / 4), ("B", (1 : ℚ) / 4)]).map Prod.snd).sum = 1 := by
  obtain ⟨hok, _, hsum, _⟩ :=
    C4_normalization_invariant [⟨"A", some 3⟩, ⟨"B", some 1⟩] (by decide)
      (by
        intro c hc
        fin_cases hc
        · exact ⟨3, rfl, by norm_num⟩
        · exact ⟨1, rfl, by norm_num⟩)
      (by decide)
  rw [hok]
  exact ⟨by decide, by decide⟩

/-! ## C1 — weight reconciliation -/

/-- Closed form of `reconcileAggregate` on a non-empty `per_criterion`
payload. -/
theorem reconcile_nonempty (normalized : List (String × ℚ)) (data : OracleData)
    (max_score : ℚ) (rows : List OracleRow)
    (h : data.per_criterion = some rows) (hne : rows ≠ []) :
    reconcileAggregate normalized data max_score =
      { per_criterion := rows.map fun row => { row with weight := some (rowWeight normalized row) }
        overall_score :=
          pyMax 0 (pyMin 100 ((rows.map fun row => (row.score.getD 0) * rowWeight normalized row).sum))
        summary := data.summary
        scaled_total :=
          round2 (pyMax 0 (pyMin 100
            ((rows.map fun row => (row.score.getD 0) * rowWeight normalized row).sum)) / 100 * max_score) } := by
  obtain ⟨pc, sm⟩ := data
  cases rows with
  | nil => exact absurd rfl hne
  | cons r0 rest =>
    simp only [OracleData.per_criterion] at h
    subst h
    rfl

/-- Claim C1 counterexample: on the spec's own example (rubric weights 0.5/0.5,
oracle rows claiming weights 0.9/0.1 with scores 100/0) the code
aggregates with the ORACLE's weights, producing 90, not the claimed 50,
and the rows keep the oracle weights 0.9/0.1. -/
theorem C1_counterexample :
    normalizeCriteria [⟨"Correctness", some (1 / 2)⟩, ⟨"Style", some (1 / 2)⟩] =
      .ok [("Correctness", 1 / 2), ("Style", 1 / 2)] ∧
    (reconcileAggregate [("Correctness", 1 / 2), ("Style", 1 / 2)]
        ⟨some [⟨some "Correctness", some (9 / 10), some 100, none⟩,
               ⟨some "Style", some (1 / 10), some 0, none⟩], none⟩ 100).overall_score = 90 ∧
    (90 : ℚ) ≠ 50 ∧
    (reconcileAggregate [("Correctness", 1 / 2), ("Style", 1 / 2)]
        ⟨some [⟨some "Correctness", some (9 / 10), some 100, none⟩,
               ⟨some "Style", some (1 / 10), some 0, none⟩], none⟩ 100).per_criterion =
      [⟨some "Correctness", some (9 / 10), some 100, none⟩,
       ⟨some "Style", some (1 / 10), some 0, none⟩] :=
  ⟨by decide, by decide, by decide, by decide⟩

/-- Claim C1 amended: the weight used for each row is the ORACLE's
self-reported weight whenever the row carries one; only when the row has
no weight key does the reconciler's normalized weight for the row's
criterion name apply (0.0 for an unknown name), and every result row's
weight field is set to the weight so chosen; on the spec's example the
aggregated overall_score is therefore 90.0, not 50.0. -/
theorem C1_reconciliation_weights :
    (∀ (normalized : List (String × ℚ)) (row : OracleRow) (w : ℚ),
        row.weight = some w → rowWeight normalized row = w) ∧
    (∀ (normalized : List (String × ℚ)) (row : OracleRow),
        row.weight = none →
        rowWeight normalized row = (dictGet normalized (row.criterion.getD "")).getD 0) ∧
    (∀ (normalized : List (String × ℚ)) (data : OracleData) (max_score : ℚ)
        (rows : List OracleRow), data.per_criterion = some rows → rows ≠ [] →
        (reconcileAggregate normalized data max_score).per_criterion =
          rows.map fun row => { row with weight := some (rowWeight normalized row) }) ∧
    (reconcileAggregate [("Correctness", 1 / 2), ("Style", 1 / 2)]
        ⟨some [⟨some "Correctness", some (9 / 10), some 100, none⟩,
               ⟨some "Style", some (1 / 10), some 0, none⟩], none⟩ 100).overall_score = 90 := by
  refine ⟨?_, ?_, ?_, by decide⟩
  · intro normalized row w h
    simp [rowWeight, h]
  · intro normalized row h
    simp [rowWeight, h]
  · intro normalized data max_score rows h hne
    rw [reconcile_nonempty normalized data max_score rows h hne]

/-- Claim C1 witness: the amended statement at concrete rows, one with and one
without an oracle-reported weight. -/
theorem C1_witness :
    rowWeight [("A", (1 : ℚ) / 2)] ⟨some "A", some (9 / 10), some 100, none⟩ = 9 / 10 ∧
    rowWeight [("A", (1 : ℚ) / 2)] ⟨some "A", none, some 100, none⟩ = 1 / 2 := by
  constructor
  · exact C1_reconciliation_weights.1 _ _ _ rfl
  · rw [C1_reconciliation_weights.2.1 [("A", (1 : ℚ) / 2)] ⟨some "A", none, some 100, none⟩ rfl]
    decide

/-! ## C6 — empty-feedback reconciliation -/

/-- Claim C6: if the parsed payload's `per_criterion` is absent or the empty
list, the result enumerates the full normalized rubric as its
`per_criterion`, the overall score is 0.0, and the summary is the
oracle's summary when present and "No feedback returned." otherwise. -/
theorem C6_empty_feedback :
    ∀ (normalized : List (String × ℚ)) (data : OracleData) (max_score : ℚ),
      data.per_criterion = none ∨ data.per_criterion = some [] →
      (reconcileAggregate normalized data max_score).per_criterion =
          normalized.map (fun p => ⟨some p.1, some p.2, none, none⟩) ∧
      (reconcileAggregate normalized data max_score).overall_score = 0 ∧
      (reconcileAggregate normalized data max_score).summary =
          some (data.summary.getD "No feedback returned.") ∧
      ((reconcileAggregate normalized data max_score).per_criterion.map
          (fun r => r.criterion)) = normalized.map (fun p => some p.1) := by
  intro normalized data max_score h
  obtain ⟨pc, sm⟩ := data
  rcases h with h | h <;>
    · simp only [OracleData.per_criterion] at h
      subst h
      refine ⟨rfl, rfl, rfl, ?_⟩
      simp [reconcileAggregate, List.map_map]

/-- Claim C6 witness: the statement at a concrete payload with empty
`per_criterion` and a present summary. -/
theorem C6_witness :
    (reconcileAggregate [("A", 1)] ⟨some [], some "great work"⟩ 50).per_criterion =
        [⟨some "A", some 1, none, none⟩] ∧
    (reconcileAggregate [("A", 1)] ⟨some [], some "great work"⟩ 50).overall_score = 0 ∧
    (reconcileAggregate [("A", 1)] ⟨some [], some "great work"⟩ 50).summary =
        some "great work" := by
  obtain ⟨h1, h2, h3, _⟩ :=
    C6_empty_feedback [("A", 1)] ⟨some [], some "great work"⟩ 50 (Or.inr rfl)
  exact ⟨h1, h2, h3⟩

/-! ## C7 — aggregator bounds -/

/-- Batteries' computable rational floor agrees with Mathlib's. -/
theorem ratFloor_eq_intFloor (q : ℚ) : q.floor = ⌊q⌋ := by
  rw [Rat.floor_def', Rat.floor_def]

/-- Round-half-even of a non-negative rational is non-negative. -/
theorem roundHalfEven_nonneg (x : ℚ) (hx : 0 ≤ x) : 0 ≤ roundHalfEven x := by
  unfold roundHalfEven
  rw [ratFloor_eq_intFloor]
  have h0 : (0 : ℤ) ≤ ⌊x⌋ := Int.floor_nonneg.mpr hx
  dsimp only
  split_ifs <;> omega

/-- Round-half-even never overshoots an integer upper bound. -/
theorem roundHalfEven_le_int (x : ℚ) (z : ℤ) (h : x ≤ (z : ℚ)) : roundHalfEven x ≤ z := by
  unfold roundHalfEven
  rw [ratFloor_eq_intFloor]
  have hf : ⌊x⌋ ≤ z := by
    have h1 : (⌊x⌋ : ℚ) ≤ (z : ℚ) := le_trans (Int.floor_le x) h
    exact_mod_cast h1
  have key : (1 : ℚ) / 2 ≤ x - ⌊x⌋ → ⌊x⌋ + 1 ≤ z := by
    intro hge
    have hlt : (⌊x⌋ : ℚ) < x := by linarith
    have : (⌊x⌋ : ℚ) < (z : ℚ) := lt_of_lt_of_le hlt h
    exact Int.add_one_le_iff.mpr (by exact_mod_cast this)
  dsimp only
  split_ifs with h1 h2 h3
  · exact hf
  · exact key (by linarith)
  · exact hf
  · exact key (by linarith)

/-- Round-to-two-places of a non-negative rational is non-negative. -/
theorem round2_nonneg (x : ℚ) (hx : 0 ≤ x) : 0 ≤ round2 x := by
  unfold round2
  have := roundHalfEven_nonneg (x * 100) (by positivity)
  positivity

/-- Round-to-two-places respects an upper bound with at most two decimal
places. -/
theorem round2_le (x m : ℚ) (hx : x ≤ m) (hm : (m * 100).den = 1) : round2 x ≤ m := by
  unfold round2
  have hz : ((m * 100).num : ℚ) = m * 100 := Rat.coe_int_num_of_den_eq_one hm
  have h1 : x * 100 ≤ ((m * 100).num : ℚ) := by
    rw [hz]
    nlinarith
  have h2 : roundHalfEven (x * 100) ≤ (m * 100).num := roundHalfEven_le_int _ _ h1
  have h3 : ((roundHalfEven (x * 100)) : ℚ) ≤ m * 100 := by
    rw [← hz]
    exact_mod_cast h2
  linarith

/-- Claim C7 counterexample: with an oracle row reporting weight 0.5 for a
criterion whose reconciled weight is 1, the code aggregates 40 while the
claim's formula over reconciled weights gives 80; and with
max_score = 1.375, scaled_total rounds up to 1.38 > max_score,
violating the claimed [0, max_score] bound. -/
theorem C7_counterexample :
    (reconcileAggregate [("A", 1)]
        ⟨some [⟨some "A", some (1 / 2), some 80, none⟩], none⟩ 100).overall_score = 40 ∧
    (40 : ℚ) ≠ 80 ∧
    (reconcileAggregate [("A", 1)]
        ⟨some [⟨some "A", some 1, some 100, none⟩], none⟩ (11 / 8)).scaled_total = 69 / 50 ∧
    (11 / 8 : ℚ) < 69 / 50 :=
  ⟨by decide, by decide, by decide, by decide⟩

/-- Claim C7 amended: for a non-empty per-criterion payload and positive
max_score, overall_score equals the clamp to [0,100] of
Σ score_i · w_i where w_i is the row's own reported weight when present
(else the reconciled weight, 0.0 for unknown names); overall_score lies
in [0,100]; scaled_total equals round-half-even(overall/100·max_score, 2)
and is ≥ 0; and scaled_total ≤ max_score holds under the additional
hypothesis that max_score has at most two decimal places (rounding can
otherwise overshoot, see the counterexample). -/
theorem C7_aggregator_bounds :
    ∀ (normalized : List (String × ℚ)) (data : OracleData) (max_score : ℚ)
      (rows : List OracleRow),
      data.per_criterion = some rows → rows ≠ [] → 0 < max_score →
      (reconcileAggregate normalized data max_score).overall_score =
          pyMax 0 (pyMin 100
            ((rows.map fun row => (row.score.getD 0) * rowWeight normalized row).sum)) ∧
      0 ≤ (reconcileAggregate normalized data max_score).overall_score ∧
      (reconcileAggregate normalized data max_score).overall_score ≤ 100 ∧
      (reconcileAggregate normalized data max_score).scaled_total =
          round2 ((reconcileAggregate normalized data max_score).overall_score / 100 * max_score) ∧
      0 ≤ (reconcileAggregate normalized data max_score).scaled_total ∧
      ((max_score * 100).den = 1 →
        (reconcileAggregate normalized data max_score).scaled_total ≤ max_score) := by
  intro normalized data max_score rows h hne hpos
  rw [reconcile_nonempty normalized data max_score rows h hne]
  set agg := (rows.map fun row => (row.score.getD 0) * rowWeight normalized row).sum with hagg
  have h0 : 0 ≤ pyMax 0 (pyMin 100 agg) := by
    unfold pyMax pyMin
    split_ifs <;> linarith
  have h100 : pyMax 0 (pyMin 100 agg) ≤ 100 := by
    unfold pyMax pyMin
    split_ifs <;> linarith
  have hx : pyMax 0 (pyMin 100 agg) / 100 * max_score ≤ max_score := by
    have : pyMax 0 (pyMin 100 agg) / 100 ≤ 1 := by linarith [div_le_one (show (0:ℚ) < 100 by norm_num) |>.mpr h100]
    nlinarith
  have hx0 : 0 ≤ pyMax 0 (pyMin 100 agg) / 100 * max_score := by positivity
  refine ⟨rfl, h0, h100, rfl, round2_nonneg _ hx0, fun hden => round2_le _ _ hx hden⟩

/-- Claim C7 witness: the amended statement at a concrete payload (one row,
no reported weight, score 50, reconciled weight 1, max_score 10). -/
theorem C7_witness :
    0 ≤ (reconcileAggregate [("A", 1)]
        ⟨some [⟨some "A", none, some 50, none⟩], none⟩ 10).overall_score ∧
    (reconcileAggregate [("A", 1)]
        ⟨some [⟨some "A", none, some 50, none⟩], none⟩ 10).overall_score ≤ 100 ∧
    (reconcileAggregate [("A", 1)]
        ⟨some [⟨some "A", none, some 50, none⟩], none⟩ 10).scaled_total ≤ 10 := by
  obtain ⟨_, h2, h3, _, _, h6⟩ :=
    C7_aggregator_bounds [("A", 1)] ⟨some [⟨some "A", none, some 50, none⟩], none⟩ 10
      [⟨some "A", none, some 50, none⟩] rfl (by decide) (by norm_num)
  exact ⟨h2, h3, h6 (by decide)⟩

/-! ## C2 — empty-rubric handling -/

/-- Claim C2 counterexample: called with an empty criteria sequence, the
grading pipeline raises no `ValidationError` at all — the oracle IS
called (the zero sum falls back to a 1.0 divisor) and a GradingResult
is produced. -/
theorem C2_counterexample :
    evaluate_with_openai [] "no json here" 100 =
      ⟨true, .ok ⟨[], 0, some "Parsing failed.", 0⟩⟩ := by
  decide

/-- Claim C2 amended: the empty-rubric rejection lives solely in the
`ActivityCreate` pydantic model (its `non_empty` validator raises, so
construction fails with `ValidationError` for ANY field values when
`criteria` is empty); `evaluate_with_openai` itself performs no such
check and always reaches the oracle call when given empty criteria. -/
theorem C2_validation_location :
    (∀ (title instruction : String) (max_score : ℚ),
        activityCreateValidate title instruction max_score [] = .error .validationError) ∧
    (∀ (text : String) (max_score : ℚ),
        (evaluate_with_openai [] text max_score).oracleCalled = true) := by
  constructor
  · intro t i m
    unfold activityCreateValidate
    rw [if_neg]
    simp
  · intro text m
    unfold evaluate_with_openai
    rw [show normalizeCriteria [] = .ok ([] : List (String × ℚ)) from rfl]
    cases toOracleData (parse_json text) <;> rfl

/-- Claim C2 witness: the amended statement at concrete inputs. -/
theorem C2_witness :
    activityCreateValidate "Sorting drill" "" 100 [] = .error .validationError ∧
    (evaluate_with_openai [] "whatever" 50).oracleCalled = true :=
  ⟨C2_validation_location.1 "Sorting drill" "" 100, C2_validation_location.2 "whatever" 50⟩

/-! ## C5 — parse fallback -/

/-- Claim C5 counterexample: the claim says a failed brace extraction yields
the fallback, but for the brace-free input "3" the code instead parses
the WHOLE text as JSON and returns the number 3, not the fallback
object. -/
theorem C5_counterexample :
    strFind "3".data lbrace = none ∧
    parse_json "3" = Json.num 3 ∧
    parse_json "3" ≠ parseFallback := by
  refine ⟨by decide, by rfl, ?_⟩
  intro h
  exact Json.noConfusion h

/-- Claim C5 amended: `_parse_json` hands `json.loads` the slice between the
outermost braces when a `{` exists with a `}` after it, and otherwise
the WHOLE text; it never raises, returning either the parsed value or —
exactly when that single parse attempt fails — the fallback
`per_criterion = [], overall_score = 0.0, summary = "Parsing failed."`;
parsing "I cannot comply." yields the fallback. -/
theorem C5_parse_fallback :
    (∀ s : String, parse_json s = parseFallback ∨
        ∃ v, json_loads (parseCandidate s) = some v ∧ parse_json s = v) ∧
    (∀ s : String, json_loads (parseCandidate s) = none → parse_json s = parseFallback) ∧
    parse_json "I cannot comply." = parseFallback := by
  refine ⟨?_, ?_, by rfl⟩
  · intro s
    cases h : json_loads (parseCandidate s) with
    | none => exact Or.inl (by simp [parse_json, h])
    | some v => exact Or.inr ⟨v, rfl, by simp [parse_json, h]⟩
  · intro s h
    simp [parse_json, h]

/-- Claim C5 witness: the fallback branch of the amended statement at a
concrete non-JSON input. -/
theorem C5_witness :
    json_loads (parseCandidate "I cannot comply.") = none ∧
    parse_json "I cannot comply." = parseFallback :=
  ⟨rfl, C5_parse_fallback.2.1 "I cannot comply." rfl⟩

/-! ## C8 — determinism of the parse-reconcile-aggregate computation -/

/-- Claim C8: the embedded parse-reconcile-aggregate pipeline is a pure
function of its arguments — two runs on identical raw oracle text,
criteria and max_score return identical traces (hence bit-identical
overall_score, per_criterion and scaled_total). -/
theorem C8_determinism :
    ∀ (c1 c2 : List Criterion) (t1 t2 : String) (m1 m2 : ℚ),
      c1 = c2 → t1 = t2 → m1 = m2 →
      evaluate_with_openai c1 t1 m1 = evaluate_with_openai c2 t2 m2 := by
  intro c1 c2 t1 t2 m1 m2 hc ht hm
  subst hc; subst ht; subst hm
  rfl

/-- Claim C8 witness: two identical runs at concrete inputs. -/
theorem C8_witness :
    evaluate_with_openai [⟨"A", some 1⟩] "score it" 5 =
      evaluate_with_openai [⟨"A", some 1⟩] "score it" 5 :=
  C8_determinism _ _ _ _ _ _ rfl rfl rfl

/-! ## C9 — retry discipline -/

/-- Complete case analysis of the tenacity-wrapped call over the first
three attempt outcomes. -/
theorem tenacity3_cases {A : Type} (f : ℕ → Except PyExc A) :
    (∃ a, f 0 = .ok a ∧ tenacityRetry3 f = ⟨.ok a, 1, []⟩) ∨
    (∃ e0 a, f 0 = .error e0 ∧ f 1 = .ok a ∧ tenacityRetry3 f = ⟨.ok a, 2, [1]⟩) ∨
    (∃ e0 e1 a, f 0 = .error e0 ∧ f 1 = .error e1 ∧ f 2 = .ok a ∧
      tenacityRetry3 f = ⟨.ok a, 3, [1, 2]⟩) ∨
    (∃ e0 e1 e2, f 0 = .error e0 ∧ f 1 = .error e1 ∧ f 2 = .error e2 ∧
      tenacityRetry3 f = ⟨.error ⟨e2⟩, 3, [1, 2]⟩) := by
  have w1 : waitExpMin1Max8 1 = 1 := by decide
  have w2 : waitExpMin1Max8 2 = 2 := by decide
  cases h0 : f 0 with
  | ok a => exact Or.inl ⟨a, rfl, by simp [tenacityRetry3, retryLoop, h0]⟩
  | error e0 =>
    cases h1 : f 1 with
    | ok a =>
      exact Or.inr (Or.inl ⟨e0, a, rfl, rfl,
        by simp [tenacityRetry3, retryLoop, h0, h1, w1]⟩)
    | error e1 =>
      cases h2 : f 2 with
      | ok a =>
        exact Or.inr (Or.inr (Or.inl ⟨e0, e1, a, rfl, rfl, rfl,
          by simp [tenacityRetry3, retryLoop, h0, h1, h2, w1, w2]⟩))
      | error e2 =>
        exact Or.inr (Or.inr (Or.inr ⟨e0, e1, e2, rfl, rfl, rfl,
          by simp [tenacityRetry3, retryLoop, h0, h1, h2, w1, w2]⟩))

/-- Claim C9 counterexample: the decorator has no `retry=` filter, so a
semantic failure (here a `ValueError`, not a transport failure) on the
first attempt IS retried and the call succeeds on the second attempt —
contradicting "only transport/availability failures are retried"; and
exhausting three semantic failures ends in tenacity's `RetryError`
wrapping the last exception, not in any `OracleUnavailable`. -/
theorem C9_counterexample :
    tenacityRetry3 (fun n => if n = 0 then .error PyExc.valueError else .ok "ok") =
      ⟨.ok "ok", 2, [1]⟩ ∧
    tenacityRetry3 (fun _ => (Except.error PyExc.valueError : Except PyExc String)) =
      ⟨.error ⟨PyExc.valueError⟩, 3, [1, 2]⟩ :=
  ⟨by decide, by decide⟩

/-- Claim C9 amended: the oracle call is attempted at most 3 times with
backoff waits within [1, 8] (concretely 1 then 2 time-units); ANY
exception — semantic failures included — triggers a retry while
attempts remain; after 3 consecutive failures the call raises
tenacity's `RetryError` carrying the last exception (the code defines
no `OracleUnavailable`), and the error outcome carries no
GradingResult. -/
theorem C9_retry_discipline :
    ∀ (f : ℕ → Except PyExc String),
      (tenacityRetry3 f).attempts ≤ 3 ∧
      (∀ w ∈ (tenacityRetry3 f).waits, 1 ≤ w ∧ w ≤ 8) ∧
      (∀ e0 e1 e2, f 0 = .error e0 → f 1 = .error e1 → f 2 = .error e2 →
        tenacityRetry3 f = ⟨.error ⟨e2⟩, 3, [1, 2]⟩) ∧
      (∀ e a, f 0 = .error e → f 1 = .ok a → tenacityRetry3 f = ⟨.ok a, 2, [1]⟩) := by
  intro f
  rcases tenacity3_cases f with ⟨a, h0, ht⟩ | ⟨e0, a, h0, h1, ht⟩ |
    ⟨e0, e1, a, h0, h1, h2, ht⟩ | ⟨e0, e1, e2, h0, h1, h2, ht⟩
  · rw [ht]
    refine ⟨?_, ?_, ?_, ?_⟩
    · norm_num
    · intro w hw
      cases hw
    · intro x y z hx _ _
      rw [hx] at h0
      cases h0
    · intro x y hx _
      rw [hx] at h0
      cases h0
  · rw [ht]
    refine ⟨?_, ?_, ?_, ?_⟩
    · norm_num
    · intro w hw
      fin_cases hw
      norm_num
    · intro x y z _ hy _
      rw [hy] at h1
      cases h1
    · intro x y _ hy
      rw [hy] at h1
      injection h1 with h1e
      rw [h1e]
  · rw [ht]
    refine ⟨?_, ?_, ?_, ?_⟩
    · norm_num
    · intro w hw
      fin_cases hw <;> norm_num
    · intro x y z _ _ hz
      rw [hz] at h2
      cases h2
    · intro x y _ hy
      rw [hy] at h1
      cases h1
  · rw [ht]
    refine ⟨?_, ?_, ?_, ?_⟩
    · norm_num
    · intro w hw
      fin_cases hw <;> norm_num
    · intro x y z _ _ hz
      rw [hz] at h2
      injection h2 with h2e
      rw [h2e]
    · intro x y _ hy
      rw [hy] at h1
      cases h1

/-- Claim C9 witness: the retry-exhaustion clause of the amended statement at
a constant transport failure. -/
theorem C9_witness :
    tenacityRetry3 (fun _ => (Except.error PyExc.apiConnectionError : Except PyExc String)) =
      ⟨.error ⟨PyExc.apiConnectionError⟩, 3, [1, 2]⟩ :=
  (C9_retry_discipline (fun _ => .error PyExc.apiConnectionError)).2.2.1 _ _ _ rfl rfl rfl

/-! ## C10 — join-code generation -/

/-- Uppercasing a lowercase hexadecimal digit yields an uppercase one. -/
theorem toUpper_lowerHex (c : Char) (h : c ∈ lowerHexChars) :
    c.toUpper ∈ upperHexChars := by
  have hall : ∀ x ∈ lowerHexChars, x.toUpper ∈ upperHexChars := by decide
  exact hall c h

/-- Claim C10: join codes are exactly the first 6 characters of the fresh
UUID's 32-character lowercase-hex digest uppercased (hence 6 uppercase
hex characters); `create_activity` tries at most 5 candidates, inserts
and returns the first candidate with no existing activity, and when all
5 candidates collide it raises `RuntimeError` having inserted
nothing. -/
theorem C10_join_code_generation :
    (∀ uuidHex : List Char, uuidHex.length = 32 →
        (∀ c ∈ uuidHex, c ∈ lowerHexChars) →
        (gen_join_code uuidHex).length = 6 ∧
        ∀ c ∈ gen_join_code uuidHex, c ∈ upperHexChars) ∧
    (∀ (uuidHexes : ℕ → List Char) (existing : List Char → Bool),
        (∀ i, i < 5 → existing (gen_join_code (uuidHexes i)) = true) →
        create_activity uuidHexes existing = (none, [])) ∧
    (∀ (uuidHexes : ℕ → List Char) (existing : List Char → Bool) (k : ℕ),
        k < 5 → existing (gen_join_code (uuidHexes k)) = false →
        (∀ i, i < k → existing (gen_join_code (uuidHexes i)) = true) →
        create_activity uuidHexes existing =
          (some (gen_join_code (uuidHexes k)), [gen_join_code (uuidHexes k)])) := by
  refine ⟨?_, ?_, ?_⟩
  · intro uuidHex hlen hmem
    constructor
    · simp [gen_join_code, hlen]
    · intro c hc
      obtain ⟨c', hc', rfl⟩ := List.mem_map.mp hc
      exact toUpper_lowerHex c' (hmem c' (List.mem_of_mem_take hc'))
  · intro u ex h
    simp [create_activity, createActivityLoop,
      h 0 (by omega), h 1 (by omega), h 2 (by omega), h 3 (by omega), h 4 (by omega)]
  · intro u ex k hk hfree hprev
    interval_cases k
    · simp [create_activity, createActivityLoop, hfree]
    · simp [create_activity, createActivityLoop, hprev 0 (by omega), hfree]
    · simp [create_activity, createActivityLoop,
        hprev 0 (by omega), hprev 1 (by omega), hfree]
    · simp [create_activity, createActivityLoop,
        hprev 0 (by omega), hprev 1 (by omega), hprev 2 (by omega), hfree]
    · simp [create_activity, createActivityLoop,
        hprev 0 (by omega), hprev 1 (by omega), hprev 2 (by omega), hprev 3 (by omega), hfree]

/-- Claim C10 witness: the statement at a concrete digest, and a
creation run in which the first candidate is free. -/
theorem C10_witness :
    (gen_join_code "0123456789abcdef0123456789abcdef".data).length = 6 ∧
    create_activity (fun _ => "0123456789abcdef0123456789abcdef".data) (fun _ => false) =
      (some (gen_join_code "0123456789abcdef0123456789abcdef".data),
       [gen_join_code "0123456789abcdef0123456789abcdef".data]) := by
  obtain ⟨h1, _⟩ :=
    C10_join_code_generation.1 "0123456789abcdef0123456789abcdef".data (by decide) (by decide)
  refine ⟨h1, ?_⟩
  exact C10_join_code_generation.2.2 (fun _ => "0123456789abcdef0123456789abcdef".data)
    (fun _ => false) 0 (by omega) rfl (by omega)
